import Mathlib

/-!
Shallow embedding of `src/betterStackSink.ts` (the BetterStack sink of the
structured-log adapter) and proofs about it.

Modelling conventions:
- JavaScript values that the code inspects for truthiness or strict equality
  are modelled by the small inductive `JsVal`.
- `localStorage` is modelled as an association list `Store` (keys are unique
  in a real store; the operations are faithful to `setItem` / `getItem` /
  `removeItem` / key enumeration on any list).
- The network is modelled by a `FetchOutcome` oracle: the host `fetch`
  primitive resolves with a `Response` for every completed HTTP exchange
  (success or non-success status alike) and rejects only on a network
  failure.  The code never reads the response's status, so the response is
  modelled as `resolved ok` with an `ok` flag that the embedding, like the
  source, never inspects.
- Promise resolution / rejection of one `emit` or replay chain is the
  `EmitResult` value; `console.warn` output is collected in a `List String`
  (the diagnostic channel), guarded by a `consoleAvail` flag modelling
  `typeof console !== 'undefined' && console.warn`.
- `Date.getTime()` and `Math.random()` in the storage-key generator are
  modelled by explicit `now` / `rand` parameters.
- The payload text produced by the host `JSON.stringify` is modelled by
  `serializeBatch`; string escaping details of the host primitive are not
  reproduced (no claim depends on the payload text, only on which keys hold
  a payload).
-/

namespace BetterStack

/-- A JavaScript value, as far as the sink's code inspects one
(truthiness and strict equality `===` / `!==`). -/
inductive JsVal where
  | undef
  | nullV
  | boolV (b : Bool)
  | numV (n : Int)
  | strV (s : String)
deriving DecidableEq

/-- JavaScript truthiness of a `JsVal`. -/
def jsTruthy : JsVal → Bool
  | JsVal.undef => false
  | JsVal.nullV => false
  | JsVal.boolV b => b
  | JsVal.numV n => decide (n ≠ 0)
  | JsVal.strV s => decide (s ≠ "")

/-- The `error` slot of a log event: either a value that passes
`instanceof Error` (carrying an optional `stack` string), or some
other, non-Error value. -/
inductive JsErrorLike where
  | errObj (stack : Option String)
  | notErr
deriving DecidableEq

/-- `messageTemplate` of a log event; the sink only reads `.raw`. -/
structure MessageTemplate where
  raw : String
deriving DecidableEq

/-- A structured-log event, as consumed by the sink (read-only). -/
structure LogEvent where
  level : Nat
  messageTemplate : MessageTemplate
  properties : List (String × JsVal)
  timestamp : String
  error : Option JsErrorLike
deriving DecidableEq

/-- Source lines 18-26: the `levelMapping` object literal of the sink,
as an association list in source order. -/
def levelMapping : List (Nat × String) :=
  [(0, "none"), (1, "critical"), (3, "error"), (7, "warning"),
   (15, "info"), (31, "debug"), (63, "trace")]

/-- Source lines 153-155: `mapLogLevel(level)` is `this.levelMapping[level]`;
JavaScript object indexing yields `undefined` (here `none`) for an absent
key and never throws. -/
def mapLogLevel (level : Nat) : Option String :=
  levelMapping.lookup level

/-- Source lines 83-89: `getAppname(properties)` returns
`properties["appname"]` when the key is present (`'appname' in properties`),
else the literal `"unknown"`. -/
def getAppname (properties : List (String × JsVal)) : JsVal :=
  match properties.lookup "appname" with
  | some v => v
  | none => JsVal.strV "unknown"

/-- The outbound record built per event in `sendToServer` (lines 92-115),
flattened: `syslogAppname`, `syslogHost`, `syslogHostname` are the fields of
the nested `syslog` object, and `syslogExceptionDetail` is the content of
the nested `syslog["logtail@11993"]` diagnostic object (`none` models the
empty object, `some s` models `{ExceptionDetail: s}`). -/
structure OutboundRecord where
  level : Option String
  message : String
  properties : List (String × JsVal)
  dt : String
  platform : String
  osplatform : String
  syslogAppname : JsVal
  syslogHost : String
  syslogHostname : String
  syslogExceptionDetail : Option String
deriving DecidableEq

/-- Source lines 92-115: the per-event body of `events.map(...)` in
`sendToServer`.  The `ExceptionDetail` field is attached exactly when
`e.error instanceof Error && e.error.stack` holds, i.e. the error value is
an `Error` whose `stack` is a non-empty string (JavaScript truthiness of
the optional `stack` string). -/
def mapEvent (e : LogEvent) : OutboundRecord :=
  { level := mapLogLevel e.level
    message := e.messageTemplate.raw
    properties := e.properties
    dt := e.timestamp
    platform := "browser"
    osplatform := "browser"
    syslogAppname := getAppname e.properties
    syslogHost := "localhost"
    syslogHostname := "localhost"
    syslogExceptionDetail :=
      match e.error with
      | some (JsErrorLike.errObj (some s)) => if s = "" then none else some s
      | _ => none }

/-- JSON text of a `JsVal` (host `JSON.stringify` approximation). -/
def encodeJsVal : JsVal → String
  | JsVal.undef => "null"
  | JsVal.nullV => "null"
  | JsVal.boolV b => if b then "true" else "false"
  | JsVal.numV n => toString n
  | JsVal.strV s => "\"" ++ s ++ "\""

/-- JSON text of a properties object; keys holding `undefined` are dropped,
as `JSON.stringify` does. -/
def encodeProps (props : List (String × JsVal)) : String :=
  "\x7b" ++
    String.intercalate ","
      ((props.filter (fun p => p.2 != JsVal.undef)).map
        (fun p => "\"" ++ p.1 ++ "\":" ++ encodeJsVal p.2)) ++
  "\x7d"

/-- JSON text of one outbound record (keys in insertion order; an
`undefined` level is dropped, and the diagnostic object is `\x7b\x7d` when no
`ExceptionDetail` was attached). -/
def encodeRecord (r : OutboundRecord) : String :=
  let levelField : List String :=
    match r.level with
    | some s => ["\"level\":\"" ++ s ++ "\""]
    | none => []
  let diagField : List String :=
    match r.syslogExceptionDetail with
    | some s => ["\"ExceptionDetail\":\"" ++ s ++ "\""]
    | none => []
  let syslogText : String :=
    "\x7b\"appname\":" ++ encodeJsVal r.syslogAppname ++
    ",\"host\":\"" ++ r.syslogHost ++
    "\",\"hostname\":\"" ++ r.syslogHostname ++
    "\",\"logtail@11993\":\x7b" ++ String.intercalate "," diagField ++ "\x7d\x7d"
  "\x7b" ++
    String.intercalate ","
      (levelField ++
       ["\"message\":\"" ++ r.message ++ "\"",
        "\"properties\":" ++ encodeProps r.properties,
        "\"dt\":\"" ++ r.dt ++ "\"",
        "\"platform\":\"" ++ r.platform ++ "\"",
        "\"osplatform\":\"" ++ r.osplatform ++ "\"",
        "\"syslog\":" ++ syslogText]) ++
  "\x7d"

/-- Source line 117: `JSON.stringify(logs)` for the mapped batch. -/
def serializeBatch (logs : List OutboundRecord) : String :=
  "[" ++ String.intercalate "," (logs.map encodeRecord) ++ "]"

/-- The `localStorage` contents: an association list of key/value pairs in
enumeration order (`localStorage.key(i)` walks this list). -/
abbrev Store := List (String × String)

/-- `localStorage.setItem(k, v)`: overwrite the entry when the key is
already present, otherwise append a new entry. -/
def lsSetItem (st : Store) (k v : String) : Store :=
  if st.any (fun p => decide (p.1 = k)) then
    st.map (fun p => if p.1 = k then (k, v) else p)
  else
    st ++ [(k, v)]

/-- `localStorage.getItem(k)`: the value stored under `k`, if any. -/
def lsGetItem (st : Store) (k : String) : Option String :=
  (st.find? (fun p => decide (p.1 = k))).map (fun p => p.2)

/-- `localStorage.removeItem(k)`: drop the entry for `k` (no-op if absent). -/
def lsRemoveItem (st : Store) (k : String) : Store :=
  st.filter (fun p => decide (p.1 ≠ k))

/-- The namespace of the sink's storage keys (source lines 59 and 121). -/
def storageNs : String := "structured-log-betterstack-sink"

/-- Source line 59: `storageKey.indexOf('structured-log-betterstack-sink')
!== 0` skips a key; a key is the sink's iff the namespace occurs at index
0, i.e. the key starts with it. -/
def isNsKey (k : String) : Bool :=
  decide (List.take storageNs.data.length k.data = storageNs.data)

/-- How many namespaced (sink-owned) keys a store holds. -/
def countNamespaced (st : Store) : Nat :=
  st.countP (fun p => isNsKey p.1)

/-- Source line 121: the fresh storage key
`` `structured-log-betterstack-sink-${new Date().getTime()}-${Math.floor(Math.random() * 1000000) + 1}` ``;
`now` models `Date.getTime()` and `rand` the random integer. -/
def genKey (now rand : Nat) : String :=
  storageNs ++ "-" ++ toString now ++ "-" ++ toString rand

/-- The outcome of the host `fetch` call for one delivery: `resolved ok`
when an HTTP response arrived (`ok` is its success status, which the code
never inspects — `fetch` resolves for non-success statuses too), `rejected`
on a network failure. -/
inductive FetchOutcome where
  | resolved (ok : Bool)
  | rejected (reason : String)
deriving DecidableEq

/-- How the promise of one `emit` call or one replay entry settles. -/
inductive EmitResult where
  | resolved
  | rejectedWith (reason : String)
deriving DecidableEq

/-- Source lines 147-151: `logSuppressedError(reason)` writes one warning to
the diagnostic channel when a console is available. -/
def logSuppressedError (consoleAvail : Bool) (reason : String) : List String :=
  if consoleAvail then
    ["Suppressed error when logging to Betterstack: " ++ reason]
  else
    []

/-- Source lines 119-123: in durable mode, persist the serialized batch
under a fresh key before the network call; returns the key used (if any)
and the store after persistence. -/
def persistStage (durable : Bool) (now rand : Nat) (body : String)
    (storage : Store) : Option String × Store :=
  if durable then
    let storageKey := genKey now rand
    (some storageKey, lsSetItem storage storageKey body)
  else
    (none, storage)

/-- Source lines 91-132: `sendToServer(events)`.  Maps every event, makes
the batch body, persists it when durable, then issues the delivery
(`sendRecord(body, null)`, i.e. the bare `fetch` promise).  On a resolved
response the `.then` branch removes the persisted key (if one was used) and
the promise resolves; on a rejected fetch the `.catch` branch applies the
error-suppression policy, leaving the persisted copy in place.  Returns the
final store, the settlement of the returned promise, and the diagnostic
output. -/
def sendToServer (durable suppress consoleAvail : Bool) (now rand : Nat)
    (events : List LogEvent) (outcome : FetchOutcome) (storage : Store) :
    Store × EmitResult × List String :=
  let logs := events.map mapEvent
  let body := serializeBatch logs
  let persisted := persistStage durable now rand body storage
  match outcome with
  | FetchOutcome.resolved _ =>
      (match persisted.1 with
       | some storageKey => lsRemoveItem persisted.2 storageKey
       | none => persisted.2,
       EmitResult.resolved, [])
  | FetchOutcome.rejected reason =>
      if suppress then
        (persisted.2, EmitResult.resolved, logSuppressedError consoleAvail reason)
      else
        (persisted.2, EmitResult.rejectedWith reason, [])

/-- The level filter capability (`levelSwitch.isEnabled(level)`). -/
structure LevelSwitchCap where
  isEnabled : Nat → Bool

/-- The sink's configuration state after construction (source lines
13-17, as assigned by the constructor). -/
structure BetterStackSink where
  ingestionAddress : String
  token : String
  levelSwitch : Option LevelSwitchCap
  suppressErrors : Bool
  durable : Bool

/-- Source lines 71-81: `emit(events)`.  Filters by the level switch when
one is set, short-circuits to a resolved promise on an empty filtered list
(`!filteredEvents.length`), otherwise delegates to `sendToServer`. -/
def emit (sink : BetterStackSink) (consoleAvail : Bool) (now rand : Nat)
    (events : List LogEvent) (outcome : FetchOutcome) (storage : Store) :
    Store × EmitResult × List String :=
  let filteredEvents :=
    match sink.levelSwitch with
    | some sw => events.filter (fun e => sw.isEnabled e.level)
    | none => events
  if filteredEvents.length = 0 then
    (storage, EmitResult.resolved, [])
  else
    sendToServer sink.durable sink.suppressErrors consoleAvail now rand
      filteredEvents outcome storage

/-- The fate of one replayed entry (source lines 64-66):
`sendRecord(body, () => storageKey).then(k => localStorage.removeItem(k))
.catch(...)`.  A resolved fetch runs the completion token (returning the
stored key) and removes that key; a rejected fetch leaves the key and
applies the suppression policy.  Returns (key removed?, promise settlement,
diagnostic output). -/
def replayEntry (suppress consoleAvail : Bool) (outcome : FetchOutcome) :
    Bool × EmitResult × List String :=
  match outcome with
  | FetchOutcome.resolved _ => (true, EmitResult.resolved, [])
  | FetchOutcome.rejected reason =>
      if suppress then
        (false, EmitResult.resolved, logSuppressedError consoleAvail reason)
      else
        (false, EmitResult.rejectedWith reason, [])

/-- Remove every entry whose key is listed in `ks`. -/
def removeAll (storage : Store) (ks : List String) : Store :=
  storage.filter (fun p => decide (¬ p.1 ∈ ks))

/-- Source lines 55-68: the construction-time replay loop.  It walks the
store synchronously, skips keys outside the namespace, and starts one
independent delivery chain per pending entry (keyed by its own stored key);
the asynchronous removals are modelled by their net effect on the store
once every chain has settled.  Returns the final store, the settlement of
each pending entry's chain (in enumeration order), and the concatenated
diagnostic output. -/
def constructorReplay (suppress consoleAvail : Bool)
    (outcomes : String → FetchOutcome) (storage : Store) :
    Store × List (String × EmitResult) × List String :=
  let pending := storage.filter (fun p => isNsKey p.1)
  let acts := pending.map
    (fun p => (p.1, replayEntry suppress consoleAvail (outcomes p.1)))
  let removedKeys := (acts.filter (fun a => a.2.1)).map (fun a => a.1)
  (removeAll storage removedKeys,
   acts.map (fun a => (a.1, a.2.2.1)),
   (acts.map (fun a => a.2.2.2)).flatten)

/-- The constructor options (source lines 4-9); `token` is declared a
string, the other slots are modelled as the JavaScript values the
constructor inspects (`Option` models presence of the property, i.e. the
`in` operator). -/
structure BetterStackSinkOptions where
  token : String
  ingestionUri : Option JsVal
  suppressErrors : JsVal
  durable : Option JsVal

/-- Source line 48: the constructor's durable-downgrade warning. -/
def durableWarning : String :=
  "'options.durable' parameter was set to true, but 'localStorage' is not available."

/-- Source lines 28-69: the constructor.  Validates the options, computes
the configuration fields, downgrades durability when `localStorage` is
unavailable (`lsAvail = false`) with a one-time warning, and, when durable,
runs the replay loop over the existing store.  Returns the sink together
with the store after replay, the replay settlements, and the diagnostic
output; a `ConfigurationError` is an `Except.error` with the thrown
message. -/
def construct (options : Option BetterStackSinkOptions)
    (lsAvail consoleAvail : Bool) (outcomes : String → FetchOutcome)
    (storage : Store) :
    Except String (BetterStackSink × Store × List (String × EmitResult) × List String) :=
  match options with
  | none => Except.error "'options' parameter is required."
  | some o =>
      if o.token = "" then
        Except.error "'options.token' parameter is required."
      else
        let suppress := decide (o.suppressErrors ≠ JsVal.boolV false)
        let ingestionAddress :=
          match o.ingestionUri with
          | some (JsVal.strV s) =>
              if s ≠ "" then s else "https://in.logs.betterstack.com"
          | _ => "https://in.logs.betterstack.com"
        let durableAndWarn : Bool × List String :=
          match o.durable with
          | some d =>
              if jsTruthy d && !lsAvail then
                (false, if consoleAvail then [durableWarning] else [])
              else
                (jsTruthy d, [])
          | none => (false, [])
        let sink : BetterStackSink :=
          { ingestionAddress := ingestionAddress
            token := o.token
            levelSwitch := none
            suppressErrors := suppress
            durable := durableAndWarn.1 }
        let replay :=
          if sink.durable then
            constructorReplay sink.suppressErrors consoleAvail outcomes storage
          else
            (storage, [], [])
        Except.ok (sink, replay.1, replay.2.1, durableAndWarn.2 ++ replay.2.2)

/-! Helper lemmas about the storage model. -/

theorem filter_ne_map_replace (st : Store) (k v : String) :
    (st.map (fun p => if p.1 = k then (k, v) else p)).filter
        (fun p => decide (p.1 ≠ k))
      = st.filter (fun p => decide (p.1 ≠ k)) := by
  induction st with
  | nil => rfl
  | cons a st ih =>
      simp only [decide_not] at ih
      by_cases ha : a.1 = k
      · simp [ha, ih]
      · simp [ha, ih]

theorem lsRemoveItem_lsSetItem (st : Store) (k v : String) :
    lsRemoveItem (lsSetItem st k v) k = lsRemoveItem st k := by
  unfold lsSetItem lsRemoveItem
  by_cases h : st.any (fun p => decide (p.1 = k))
  · rw [if_pos h]
    exact filter_ne_map_replace st k v
  · rw [if_neg h, List.filter_append]
    simp

theorem find_map_replace (st : Store) (k v : String)
    (h : st.any (fun p => decide (p.1 = k)) = true) :
    (st.map (fun p => if p.1 = k then (k, v) else p)).find?
        (fun p => decide (p.1 = k))
      = some (k, v) := by
  induction st with
  | nil => simp at h
  | cons a st ih =>
      by_cases ha : a.1 = k
      · simp [ha]
      · simp only [List.any_cons, Bool.or_eq_true, decide_eq_true_eq, ha,
          false_or] at h
        simp [ha, ih h]

theorem find_append_fresh (st : Store) (k v : String)
    (h : st.any (fun p => decide (p.1 = k)) = false) :
    (st ++ [(k, v)]).find? (fun p => decide (p.1 = k)) = some (k, v) := by
  induction st with
  | nil => simp
  | cons a st ih =>
      simp only [List.any_cons, Bool.or_eq_false_iff, decide_eq_false_iff_not] at h
      obtain ⟨ha, hst⟩ := h
      have h' : st.any (fun p => decide (p.1 = k)) = false := by
        simpa [decide_eq_false_iff_not] using hst
      simp [List.find?, ha, ih h']

theorem lsGetItem_lsSetItem (st : Store) (k v : String) :
    lsGetItem (lsSetItem st k v) k = some v := by
  unfold lsSetItem lsGetItem
  by_cases h : st.any (fun p => decide (p.1 = k))
  · rw [if_pos h, find_map_replace st k v h]
    rfl
  · have h' := h
    rw [Bool.not_eq_true] at h'
    rw [if_neg h, find_append_fresh st k v h']
    rfl

theorem countNamespaced_filter_le (q : String × String → Bool) (st : Store) :
    countNamespaced (st.filter q) ≤ countNamespaced st := by
  unfold countNamespaced
  induction st with
  | nil => simp
  | cons a st ih =>
      by_cases hq : q a = true
      · rw [List.filter_cons, if_pos hq, List.countP_cons, List.countP_cons]
        exact Nat.add_le_add_right ih _
      · rw [List.filter_cons, if_neg hq, List.countP_cons]
        exact Nat.le_trans ih (Nat.le_add_right _ _)

theorem isNsKey_genKey (now rand : Nat) : isNsKey (genKey now rand) = true := by
  have h : (genKey now rand).data
      = storageNs.data ++ ("-" ++ toString now ++ "-" ++ toString rand).data := by
    simp [genKey, String.data_append, List.append_assoc]
  simp [isNsKey, h]

theorem any_eq_false_of_clean (st : Store) (k : String)
    (hk : isNsKey k = true) (h : countNamespaced st = 0) :
    st.any (fun p => decide (p.1 = k)) = false := by
  unfold countNamespaced at h
  rw [List.countP_eq_zero] at h
  by_contra hany
  rw [Bool.not_eq_false, List.any_eq_true] at hany
  obtain ⟨p, hp, hpk⟩ := hany
  rw [decide_eq_true_eq] at hpk
  have hfalse := h p hp
  rw [hpk, hk] at hfalse
  exact hfalse rfl

theorem countNamespaced_lsSetItem_fresh (st : Store) (k v : String)
    (hk : isNsKey k = true) (h : countNamespaced st = 0) :
    countNamespaced (lsSetItem st k v) = 1 := by
  unfold lsSetItem
  rw [if_neg (by rw [any_eq_false_of_clean st k hk h]; exact Bool.false_ne_true)]
  unfold countNamespaced at h ⊢
  rw [List.countP_append, h, List.countP_cons]
  simp [hk]

/-! Concrete values used by the witnesses. -/

/-- A sample event with an `appname` property and no error. -/
def ev0 : LogEvent :=
  { level := 15
    messageTemplate := { raw := "hello" }
    properties := [("appname", JsVal.strV "svc-a")]
    timestamp := "2026-01-01T00:00:00Z"
    error := none }

/-- A sample event with an unmapped level code and no `appname`. -/
def ev2 : LogEvent :=
  { level := 2
    messageTemplate := { raw := "odd level" }
    properties := []
    timestamp := "2026-01-01T00:00:00Z"
    error := none }

/-- A sample event carrying an `Error` with a non-empty stack trace. -/
def evErr : LogEvent :=
  { level := 3
    messageTemplate := { raw := "boom" }
    properties := []
    timestamp := "2026-01-01T00:00:00Z"
    error := some (JsErrorLike.errObj (some "Error: boom at x")) }

/-! The claims. -/

/-- Claim C6: for every event, the translated record's level field equals
the fixed table mapping `0:none, 1:critical, 3:error, 7:warning, 15:info,
31:debug, 63:trace` when the event's integer level code is a key of the
table, and is absent (`none`, i.e. `undefined`) when the code is not in
the table; `mapLogLevel` is a total function, so translation never throws
on an unknown code. -/
theorem mapLogLevel_matches_table (e : LogEvent) :
    (mapEvent e).level = mapLogLevel e.level
    ∧ mapLogLevel 0 = some "none"
    ∧ mapLogLevel 1 = some "critical"
    ∧ mapLogLevel 3 = some "error"
    ∧ mapLogLevel 7 = some "warning"
    ∧ mapLogLevel 15 = some "info"
    ∧ mapLogLevel 31 = some "debug"
    ∧ mapLogLevel 63 = some "trace"
    ∧ (¬ e.level ∈ [0, 1, 3, 7, 15, 31, 63] → (mapEvent e).level = none) := by
  refine ⟨rfl, rfl, rfl, rfl, rfl, rfl, rfl, rfl, ?_⟩
  intro h
  simp only [List.mem_cons, List.not_mem_nil, or_false, not_or] at h
  obtain ⟨h0, h1, h3, h7, h15, h31, h63⟩ := h
  have b0 : (e.level == 0) = false := by simpa using h0
  have b1 : (e.level == 1) = false := by simpa using h1
  have b3 : (e.level == 3) = false := by simpa using h3
  have b7 : (e.level == 7) = false := by simpa using h7
  have b15 : (e.level == 15) = false := by simpa using h15
  have b31 : (e.level == 31) = false := by simpa using h31
  have b63 : (e.level == 63) = false := by simpa using h63
  simp [mapEvent, mapLogLevel, levelMapping, List.lookup, b0, b1, b3, b7,
    b15, b31, b63]

/-- Witness for C6 at the unmapped level code 2. -/
theorem mapLogLevel_matches_table_witness : (mapEvent ev2).level = none :=
  (mapLogLevel_matches_table ev2).2.2.2.2.2.2.2.2 (by decide)

/-- Claim C7: the translated record's nested diagnostic object carries an
`ExceptionDetail` field iff the event's error is recognized as an
error-like value (`instanceof Error`) with a non-empty stack trace; with
no error, or an empty or missing stack, the diagnostic object stays the
empty object (`none`). -/
theorem exceptionDetail_iff_error_with_stack (e : LogEvent) :
    ((mapEvent e).syslogExceptionDetail.isSome = true
      ↔ ∃ s, e.error = some (JsErrorLike.errObj (some s)) ∧ s ≠ "")
    ∧ (∀ s, e.error = some (JsErrorLike.errObj (some s)) → s ≠ "" →
        (mapEvent e).syslogExceptionDetail = some s)
    ∧ (e.error = none → (mapEvent e).syslogExceptionDetail = none) := by
  refine ⟨?_, ?_, ?_⟩
  · match he : e.error with
    | none => simp [mapEvent, he]
    | some JsErrorLike.notErr => simp [mapEvent, he]
    | some (JsErrorLike.errObj none) => simp [mapEvent, he]
    | some (JsErrorLike.errObj (some s)) =>
        by_cases hs : s = ""
        · simp [mapEvent, he, hs]
        · simp [mapEvent, he, hs]
  · intro s hs hne
    simp [mapEvent, hs, hne]
  · intro he
    simp [mapEvent, he]

/-- Witness for C7 at an event carrying an `Error` with a non-empty
stack. -/
theorem exceptionDetail_iff_error_with_stack_witness :
    (mapEvent evErr).syslogExceptionDetail = some "Error: boom at x" :=
  (exceptionDetail_iff_error_with_stack evErr).2.1 "Error: boom at x" rfl
    (by decide)

/-- Claim C8: the translated record's `syslog.appname` equals the value
stored under the `appname` key of the event's properties when that key is
present, and the literal string `"unknown"` when it is absent. -/
theorem appname_from_properties (e : LogEvent) :
    (∀ v, e.properties.lookup "appname" = some v →
        (mapEvent e).syslogAppname = v)
    ∧ (e.properties.lookup "appname" = none →
        (mapEvent e).syslogAppname = JsVal.strV "unknown") := by
  constructor
  · intro v hv
    simp [mapEvent, getAppname, hv]
  · intro hv
    simp [mapEvent, getAppname, hv]

/-- Witness for C8: a present `appname` round-trips, an absent one
defaults to `"unknown"`. -/
theorem appname_from_properties_witness :
    (mapEvent ev0).syslogAppname = JsVal.strV "svc-a"
    ∧ (mapEvent ev2).syslogAppname = JsVal.strV "unknown" :=
  ⟨(appname_from_properties ev0).1 (JsVal.strV "svc-a") (by decide),
   (appname_from_properties ev2).2 (by decide)⟩

/-- Claim C1: in durable mode the batch is persisted under the fresh
namespaced key before the network call (the persist stage stores the
serialized payload under `genKey now rand`), and when the delivery's fetch
promise resolves, that key is removed before the composite promise
resolves: starting from a store with no namespaced keys, the final store
equals the original store with the key removed and holds zero namespaced
keys, and the promise resolves. -/
theorem durable_key_removed_on_success (suppress consoleAvail : Bool)
    (now rand : Nat) (events : List LogEvent) (ok : Bool) (storage : Store)
    (hclean : countNamespaced storage = 0) :
    lsGetItem
        (persistStage true now rand (serializeBatch (events.map mapEvent))
          storage).2 (genKey now rand)
      = some (serializeBatch (events.map mapEvent))
    ∧ (sendToServer true suppress consoleAvail now rand events
        (FetchOutcome.resolved ok) storage).1
      = lsRemoveItem storage (genKey now rand)
    ∧ countNamespaced (sendToServer true suppress consoleAvail now rand events
        (FetchOutcome.resolved ok) storage).1 = 0
    ∧ (sendToServer true suppress consoleAvail now rand events
        (FetchOutcome.resolved ok) storage).2.1 = EmitResult.resolved := by
  have hfinal : (sendToServer true suppress consoleAvail now rand events
      (FetchOutcome.resolved ok) storage).1
      = lsRemoveItem storage (genKey now rand) := by
    simp [sendToServer, persistStage, lsRemoveItem_lsSetItem]
  refine ⟨?_, hfinal, ?_, ?_⟩
  · simp [persistStage, lsGetItem_lsSetItem]
  · rw [hfinal]
    have hle := countNamespaced_filter_le
      (fun p => decide (p.1 ≠ genKey now rand)) storage
    rw [hclean] at hle
    exact Nat.le_zero.mp hle
  · simp [sendToServer, persistStage]

/-- Witness for C1 on the empty store. -/
theorem durable_key_removed_on_success_witness :
    lsGetItem
        (persistStage true 1 2 (serializeBatch ([ev0].map mapEvent)) []).2
        (genKey 1 2)
      = some (serializeBatch ([ev0].map mapEvent))
    ∧ (sendToServer true true true 1 2 [ev0]
        (FetchOutcome.resolved true) []).1 = lsRemoveItem [] (genKey 1 2)
    ∧ countNamespaced (sendToServer true true true 1 2 [ev0]
        (FetchOutcome.resolved true) []).1 = 0
    ∧ (sendToServer true true true 1 2 [ev0]
        (FetchOutcome.resolved true) []).2.1 = EmitResult.resolved :=
  durable_key_removed_on_success true true 1 2 [ev0] true [] (by decide)

/-- Claim C2, counterexample: with durability and suppression on, a
delivery whose HTTP exchange completes with a non-success response
(`FetchOutcome.resolved false` — the host `fetch` resolves on any HTTP
status and the code never reads `response.ok`) does NOT leave the
persisted copy in place and does NOT apply the error-suppression policy:
the store ends empty (the key was removed) and no diagnostic notification
is produced. -/
theorem nonsuccess_response_counterexample :
    (sendToServer true true true 1 2 [ev0]
        (FetchOutcome.resolved false) []).1 = ([] : Store)
    ∧ (sendToServer true true true 1 2 [ev0]
        (FetchOutcome.resolved false) []).2
      = (EmitResult.resolved, ([] : List String)) :=
  ⟨by decide, by decide⟩

/-- Claim C2 as amended: only a rejected fetch promise (a network failure)
is a delivery failure.  A resolved HTTP response — success or non-success
status alike — takes the success path: the persisted copy (if durable) is
removed, the promise resolves, and the error-suppression policy is not
invoked.  A rejected fetch leaves the persisted copy in place and applies
the suppression policy. -/
theorem resolved_response_takes_success_path (durable suppress consoleAvail : Bool)
    (now rand : Nat) (events : List LogEvent) (ok : Bool) (reason : String)
    (storage : Store) :
    sendToServer durable suppress consoleAvail now rand events
        (FetchOutcome.resolved ok) storage
      = (if durable then lsRemoveItem storage (genKey now rand) else storage,
         EmitResult.resolved, [])
    ∧ (sendToServer durable suppress consoleAvail now rand events
        (FetchOutcome.rejected reason) storage).1
      = (persistStage durable now rand
          (serializeBatch (events.map mapEvent)) storage).2
    ∧ (sendToServer durable suppress consoleAvail now rand events
        (FetchOutcome.rejected reason) storage).2
      = (if suppress then
           (EmitResult.resolved, logSuppressedError consoleAvail reason)
         else
           (EmitResult.rejectedWith reason, [])) := by
  refine ⟨?_, ?_, ?_⟩
  · cases durable
    · simp [sendToServer, persistStage]
    · simp [sendToServer, persistStage, lsRemoveItem_lsSetItem]
  · cases suppress
    · simp [sendToServer]
    · simp [sendToServer]
  · cases suppress
    · simp [sendToServer]
    · simp [sendToServer]

/-- Claim C3: with durability enabled, a failing delivery (rejected fetch)
and suppression on, starting from a store with no namespaced keys, exactly
one namespaced key remains in the store, the promise resolves rather than
rejects, and exactly one notification reaches the diagnostic channel. -/
theorem durable_failure_suppressed (now rand : Nat) (events : List LogEvent)
    (reason : String) (storage : Store)
    (hclean : countNamespaced storage = 0) :
    countNamespaced (sendToServer true true true now rand events
        (FetchOutcome.rejected reason) storage).1 = 1
    ∧ (sendToServer true true true now rand events
        (FetchOutcome.rejected reason) storage).2.1 = EmitResult.resolved
    ∧ (sendToServer true true true now rand events
        (FetchOutcome.rejected reason) storage).2.2.length = 1 := by
  refine ⟨?_, ?_, ?_⟩
  · have hset : (sendToServer true true true now rand events
        (FetchOutcome.rejected reason) storage).1
        = lsSetItem storage (genKey now rand)
            (serializeBatch (events.map mapEvent)) := by
      simp [sendToServer, persistStage]
    rw [hset]
    exact countNamespaced_lsSetItem_fresh storage _ _
      (isNsKey_genKey now rand) hclean
  · simp [sendToServer, persistStage]
  · simp [sendToServer, persistStage, logSuppressedError]

/-- Witness for C3 on the empty store. -/
theorem durable_failure_suppressed_witness :
    countNamespaced (sendToServer true true true 1 2 [ev0]
        (FetchOutcome.rejected "network down") []).1 = 1
    ∧ (sendToServer true true true 1 2 [ev0]
        (FetchOutcome.rejected "network down") []).2.1 = EmitResult.resolved
    ∧ (sendToServer true true true 1 2 [ev0]
        (FetchOutcome.rejected "network down") []).2.2.length = 1 :=
  durable_failure_suppressed 1 2 [ev0] "network down" [] (by decide)

/-- Claim C4: with `suppressErrors` disabled, a delivery failure makes
the promise returned by `emit` reject with the original failure reason,
unmodified. -/
theorem emit_propagates_failure (sink : BetterStackSink)
    (hsup : sink.suppressErrors = false) (hsw : sink.levelSwitch = none)
    (consoleAvail : Bool) (now rand : Nat) (events : List LogEvent)
    (reason : String) (storage : Store) (hne : events ≠ []) :
    (emit sink consoleAvail now rand events (FetchOutcome.rejected reason)
        storage).2.1
      = EmitResult.rejectedWith reason := by
  have hlen : events.length ≠ 0 := by
    simpa using hne
  unfold emit
  rw [hsw]
  simp only [if_neg hlen]
  simp [sendToServer, hsup]

/-- A sink configured with error suppression off, as the constructor
builds one from `suppressErrors: false`. -/
def sinkNoSuppress : BetterStackSink :=
  { ingestionAddress := "https://in.logs.betterstack.com"
    token := "t"
    levelSwitch := none
    suppressErrors := false
    durable := false }

/-- Witness for C4 at a concrete sink and event. -/
theorem emit_propagates_failure_witness :
    (emit sinkNoSuppress true 1 2 [ev0] (FetchOutcome.rejected "boom")
        []).2.1
      = EmitResult.rejectedWith "boom" :=
  emit_propagates_failure sinkNoSuppress rfl rfl true 1 2 [ev0] "boom" []
    (by simp)

/-- Claim C9: the constructor computes the suppression flag as
`options.suppressErrors !== false`; every constructed sink suppresses
errors exactly when the supplied value is anything other than the exact
value `false` — including `undefined`, `null`, and other falsy values. -/
theorem suppressErrors_tristate (o : BetterStackSinkOptions)
    (lsAvail consoleAvail : Bool) (outcomes : String → FetchOutcome)
    (storage : Store) (sink : BetterStackSink)
    (rest : Store × List (String × EmitResult) × List String)
    (h : construct (some o) lsAvail consoleAvail outcomes storage
          = Except.ok (sink, rest)) :
    (sink.suppressErrors = true ↔ o.suppressErrors ≠ JsVal.boolV false) := by
  by_cases ht : o.token = ""
  · simp [construct, ht] at h
  · simp only [construct, if_neg ht, Except.ok.injEq, Prod.mk.injEq] at h
    rw [← h.1]
    simp

/-- Options with `suppressErrors` left `undefined`. -/
def optsDefault : BetterStackSinkOptions :=
  { token := "t"
    ingestionUri := none
    suppressErrors := JsVal.undef
    durable := none }

/-- The sink the constructor builds from `optsDefault` in an environment
without `localStorage`. -/
def sinkDefault : BetterStackSink :=
  { ingestionAddress := "https://in.logs.betterstack.com"
    token := "t"
    levelSwitch := none
    suppressErrors := true
    durable := false }

/-- A fixed fetch oracle for the witnesses. -/
def outcomesOk : String → FetchOutcome := fun _ => FetchOutcome.resolved true

/-- Witness for C9: `undefined` (a falsy non-`false` value) yields
suppression on. -/
theorem suppressErrors_tristate_witness :
    sinkDefault.suppressErrors = true
      ↔ optsDefault.suppressErrors ≠ JsVal.boolV false :=
  suppressErrors_tristate optsDefault false true outcomesOk [] sinkDefault
    ([], [], []) (by rfl)

/-- Claim C10: the level filter is never active — every constructed sink
has `levelSwitch = none` (the field is initialized to `null` and nothing
ever assigns it), so the filtering branch of `emit` is dead: every event
of the input list is retained and handed to `sendToServer` (which
translates each one into the batch), the empty input being the only case
resolving with no delivery attempt. -/
theorem levelSwitch_never_active (options : Option BetterStackSinkOptions)
    (lsAvail consoleAvail : Bool) (outcomes : String → FetchOutcome)
    (storage : Store) (sink : BetterStackSink)
    (rest : Store × List (String × EmitResult) × List String)
    (h : construct options lsAvail consoleAvail outcomes storage
          = Except.ok (sink, rest)) :
    sink.levelSwitch = none
    ∧ ∀ (cAvail : Bool) (now rand : Nat) (events : List LogEvent)
        (outcome : FetchOutcome) (st : Store),
        emit sink cAvail now rand events outcome st
          = if events.length = 0 then (st, EmitResult.resolved, [])
            else
              sendToServer sink.durable sink.suppressErrors cAvail now rand
                events outcome st := by
  have hsw : sink.levelSwitch = none := by
    match options with
    | none => simp [construct] at h
    | some o =>
        by_cases ht : o.token = ""
        · simp [construct, ht] at h
        · simp only [construct, if_neg ht, Except.ok.injEq,
            Prod.mk.injEq] at h
          rw [← h.1]
  refine ⟨hsw, ?_⟩
  intro cAvail now rand events outcome st
  unfold emit
  rw [hsw]

/-- Witness for C10 at a concrete construction. -/
theorem levelSwitch_never_active_witness :
    sinkDefault.levelSwitch = none
    ∧ ∀ (cAvail : Bool) (now rand : Nat) (events : List LogEvent)
        (outcome : FetchOutcome) (st : Store),
        emit sinkDefault cAvail now rand events outcome st
          = if events.length = 0 then (st, EmitResult.resolved, [])
            else
              sendToServer sinkDefault.durable sinkDefault.suppressErrors
                cAvail now rand events outcome st :=
  levelSwitch_never_active (some optsDefault) false true outcomesOk []
    sinkDefault ([], [], []) (by rfl)

/-! Helper lemmas for the construction-time replay (claim C5). -/

theorem replayEntry_fst_rejected (suppress consoleAvail : Bool) (r : String) :
    (replayEntry suppress consoleAvail (FetchOutcome.rejected r)).1 = false := by
  cases suppress <;> simp [replayEntry]

theorem constructorReplay_fst (suppress consoleAvail : Bool)
    (outcomes : String → FetchOutcome) (storage : Store) :
    (constructorReplay suppress consoleAvail outcomes storage).1
      = removeAll storage
          ((((storage.filter (fun p => isNsKey p.1)).map
              (fun p => (p.1, replayEntry suppress consoleAvail (outcomes p.1)))).filter
              (fun a => a.2.1)).map (fun a => a.1)) := rfl

theorem constructorReplay_results (suppress consoleAvail : Bool)
    (outcomes : String → FetchOutcome) (storage : Store) :
    (constructorReplay suppress consoleAvail outcomes storage).2.1
      = ((storage.filter (fun p => isNsKey p.1)).map
          (fun p => (p.1, replayEntry suppress consoleAvail (outcomes p.1)))).map
          (fun a => (a.1, a.2.2.1)) := rfl

theorem mem_replay_removedKeys (suppress consoleAvail : Bool)
    (outcomes : String → FetchOutcome) (storage : Store) (k : String) :
    k ∈ ((((storage.filter (fun p => isNsKey p.1)).map
            (fun p => (p.1, replayEntry suppress consoleAvail (outcomes p.1)))).filter
            (fun a => a.2.1)).map (fun a => a.1))
      ↔ ((∃ v, (k, v) ∈ storage) ∧ isNsKey k = true
          ∧ (replayEntry suppress consoleAvail (outcomes k)).1 = true) := by
  constructor
  · intro hk
    rw [List.mem_map] at hk
    obtain ⟨a, ha, hak⟩ := hk
    rw [List.mem_filter] at ha
    obtain ⟨haacts, harem⟩ := ha
    rw [List.mem_map] at haacts
    obtain ⟨p, hp, hpa⟩ := haacts
    rw [List.mem_filter] at hp
    obtain ⟨hps, hpn⟩ := hp
    subst hpa
    have hk1 : p.1 = k := hak
    subst hk1
    exact ⟨⟨p.2, hps⟩, hpn, harem⟩
  · rintro ⟨⟨v, hv⟩, hns, hrem⟩
    refine List.mem_map.mpr
      ⟨(k, replayEntry suppress consoleAvail (outcomes k)), ?_, rfl⟩
    refine List.mem_filter.mpr ⟨?_, hrem⟩
    exact List.mem_map.mpr ⟨(k, v), List.mem_filter.mpr ⟨hv, hns⟩, rfl⟩

/-- Claim C5: the construction-time replay enumerates exactly the stored
entries whose key bears the adapter's namespace (the settlement list
covers every pending key, in enumeration order — so one entry's failure
never blocks the others), removes a pending key from the store when its
re-issued delivery resolves, keeps the entry in the store when its
delivery rejects (settling that entry's chain per the suppression
policy), and leaves entries outside the namespace untouched. -/
theorem replay_each_entry_independent (suppress consoleAvail : Bool)
    (outcomes : String → FetchOutcome) (storage : Store) (k v : String)
    (hmem : (k, v) ∈ storage) :
    (constructorReplay suppress consoleAvail outcomes storage).2.1.map Prod.fst
        = (storage.filter (fun p => isNsKey p.1)).map Prod.fst
    ∧ (isNsKey k = true → ∀ ok, outcomes k = FetchOutcome.resolved ok →
        ∀ w, ¬ (k, w) ∈ (constructorReplay suppress consoleAvail outcomes storage).1)
    ∧ (isNsKey k = true → ∀ r, outcomes k = FetchOutcome.rejected r →
        (k, v) ∈ (constructorReplay suppress consoleAvail outcomes storage).1
        ∧ (k, if suppress then EmitResult.resolved
              else EmitResult.rejectedWith r)
            ∈ (constructorReplay suppress consoleAvail outcomes storage).2.1)
    ∧ (isNsKey k = false →
        (k, v) ∈ (constructorReplay suppress consoleAvail outcomes storage).1) := by
  refine ⟨?_, ?_, ?_, ?_⟩
  · rw [constructorReplay_results, List.map_map, List.map_map]
    rfl
  · intro hns ok hok w hw
    rw [constructorReplay_fst] at hw
    unfold removeAll at hw
    rw [List.mem_filter] at hw
    obtain ⟨hwst, hwdec⟩ := hw
    rw [decide_eq_true_eq] at hwdec
    apply hwdec
    rw [mem_replay_removedKeys]
    refine ⟨⟨v, hmem⟩, hns, ?_⟩
    rw [hok]
    rfl
  · intro hns r hr
    constructor
    · rw [constructorReplay_fst]
      unfold removeAll
      rw [List.mem_filter]
      refine ⟨hmem, ?_⟩
      rw [decide_eq_true_eq]
      intro hk
      rw [mem_replay_removedKeys] at hk
      obtain ⟨_, _, hrem⟩ := hk
      rw [hr, replayEntry_fst_rejected] at hrem
      exact Bool.false_ne_true hrem
    · rw [constructorReplay_results]
      refine List.mem_map.mpr
        ⟨(k, replayEntry suppress consoleAvail (outcomes k)), ?_, ?_⟩
      · exact List.mem_map.mpr ⟨(k, v), List.mem_filter.mpr ⟨hmem, hns⟩, rfl⟩
      · rw [hr]
        cases suppress <;> rfl
  · intro hns
    rw [constructorReplay_fst]
    unfold removeAll
    rw [List.mem_filter]
    refine ⟨hmem, ?_⟩
    rw [decide_eq_true_eq]
    intro hk
    rw [mem_replay_removedKeys] at hk
    obtain ⟨_, hns', _⟩ := hk
    rw [hns] at hns'
    exact Bool.false_ne_true hns'

/-- A store left over from a previous run: two pending batches and one
unrelated entry. -/
def storeReplay : Store :=
  [("structured-log-betterstack-sink-10-1", "bodyA"),
   ("structured-log-betterstack-sink-20-2", "bodyB"),
   ("unrelated-key", "bodyC")]

/-- A fetch oracle failing the first pending batch and delivering the
rest. -/
def outcomesMixed : String → FetchOutcome := fun k =>
  if k = "structured-log-betterstack-sink-10-1" then
    FetchOutcome.rejected "down"
  else
    FetchOutcome.resolved true

/-- Witness for C5 on a concrete store: the settlement list covers
exactly the two pending keys. -/
theorem replay_each_entry_independent_witness :
    (constructorReplay true true outcomesMixed storeReplay).2.1.map Prod.fst
      = (storeReplay.filter (fun p => isNsKey p.1)).map Prod.fst :=
  (replay_each_entry_independent true true outcomesMixed storeReplay
    "structured-log-betterstack-sink-10-1" "bodyA" (by decide)).1

end BetterStack
